import Mathlib

/-!
Verification of the KOMMANDO in-process audio engine (`src/audio.js`).

The JavaScript source is shallowly embedded as follows.

* JS numbers are modelled as exact rationals (`ℚ`).  The transcendental
  host functions (`Math.sin`, `Math.tanh`, `Math.pow`, `Math.PI`) are not
  computable over `ℚ`; they are passed in as an explicit record of abstract
  functions (`Transcend`).  Every DSP definition is a computable function of
  that record, mirroring the fact that the JS code is a deterministic
  function of the host's math library.
* JS `Map`/`Set`/plain-object tables are modelled as association lists
  (`List (String × α)`) and membership lists (`List String`), with
  insertion-order-preserving insert, delete and lookup operations.
* The asynchronous promise continuations of the playback manager are made
  explicit: issuing a loop start appends a continuation record to a queue;
  running a continuation applies the post-resolution code of `_playNow`.
  Between issue and resolution, arbitrary synchronous calls may run —
  exactly the race the intent-token mechanism resolves.
-/

/-! ## Association lists (JS objects / Maps keyed by strings) -/

/-- First-match lookup in an association list (JS `obj[k]` / `map.get(k)`). -/
def lookupA {α : Type} : List (String × α) → String → Option α
  | [], _ => none
  | (k, v) :: t, key => if k = key then some v else lookupA t key

/-- Remove every binding of a key (JS `delete obj[k]` / `map.delete(k)`). -/
def eraseA {α : Type} : List (String × α) → String → List (String × α)
  | [], _ => []
  | (k, v) :: t, key => if k = key then eraseA t key else (k, v) :: eraseA t key

/-- Insert or overwrite a binding, keeping insertion order
(JS `obj[k] = v` / `map.set(k, v)`). -/
def insertA {α : Type} : List (String × α) → String → α → List (String × α)
  | [], key, v => [(key, v)]
  | (k, w) :: t, key, v => if k = key then (key, v) :: t else (k, w) :: insertA t key v

theorem lookupA_eraseA_self {α : Type} (l : List (String × α)) (k : String) :
    lookupA (eraseA l k) k = none := by
  induction l with
  | nil => rfl
  | cons p t ih =>
    obtain ⟨k', v⟩ := p
    by_cases h : k' = k
    · simpa [eraseA, h] using ih
    · simp [eraseA, lookupA, h, ih]

theorem lookupA_eraseA_ne {α : Type} (l : List (String × α)) (k k' : String)
    (h : k ≠ k') : lookupA (eraseA l k') k = lookupA l k := by
  induction l with
  | nil => rfl
  | cons p t ih =>
    obtain ⟨k₀, v⟩ := p
    by_cases h₀ : k₀ = k'
    · subst h₀
      simp [eraseA, lookupA, Ne.symm h, ih]
    · by_cases h₁ : k₀ = k
      · simp [eraseA, lookupA, h₀, h₁, h]
      · simp [eraseA, lookupA, h₀, h₁, ih]

theorem lookupA_insertA_self {α : Type} (l : List (String × α)) (k : String) (v : α) :
    lookupA (insertA l k v) k = some v := by
  induction l with
  | nil => simp [insertA, lookupA]
  | cons p t ih =>
    obtain ⟨k₀, w⟩ := p
    by_cases h : k₀ = k
    · simp [insertA, lookupA, h]
    · simp [insertA, lookupA, h, ih]

theorem lookupA_insertA_ne {α : Type} (l : List (String × α)) (k k' : String) (v : α)
    (h : k ≠ k') : lookupA (insertA l k' v) k = lookupA l k := by
  induction l with
  | nil => simp [insertA, lookupA, Ne.symm h]
  | cons p t ih =>
    obtain ⟨k₀, w⟩ := p
    by_cases h₀ : k₀ = k'
    · subst h₀
      simp [insertA, lookupA, Ne.symm h]
    · by_cases h₁ : k₀ = k
      · simp [insertA, lookupA, h₀, h₁, h]
      · simp [insertA, lookupA, h₀, h₁, ih]

theorem lookupA_eraseA_of_none {α : Type} (l : List (String × α)) (k k' : String)
    (h : lookupA l k = none) : lookupA (eraseA l k') k = none := by
  by_cases hkk : k = k'
  · subst hkk; exact lookupA_eraseA_self l k
  · rw [lookupA_eraseA_ne l k k' hkk]; exact h

/-! ## Generic list helpers used by the embedding -/

/-- Index-aware map starting at index `i₀` (embeds JS `for` loops writing
`data[i] = f(i, data[i])`). -/
def mapIdxFrom (f : ℕ → ℚ → ℚ) : ℕ → List ℚ → List ℚ
  | _, [] => []
  | i, x :: xs => f i x :: mapIdxFrom f (i + 1) xs

/-- Index-aware map threading an accumulator (embeds JS `for` loops that
carry running phase accumulators while writing `data[i]`). -/
def mapAccumIdx {σ : Type} (f : ℕ → σ → ℚ → σ × ℚ) : ℕ → σ → List ℚ → List ℚ
  | _, _, [] => []
  | i, a, x :: xs =>
    let p := f i a x
    p.2 :: mapAccumIdx f (i + 1) p.1 xs

theorem mapIdxFrom_length (f : ℕ → ℚ → ℚ) (i : ℕ) (l : List ℚ) :
    (mapIdxFrom f i l).length = l.length := by
  induction l generalizing i with
  | nil => rfl
  | cons x xs ih => simp [mapIdxFrom, ih]

theorem mapAccumIdx_length {σ : Type} (f : ℕ → σ → ℚ → σ × ℚ) (i : ℕ) (a : σ)
    (l : List ℚ) : (mapAccumIdx f i a l).length = l.length := by
  induction l generalizing i a with
  | nil => rfl
  | cons x xs ih => simp [mapAccumIdx, ih]

/-- Erasing every element of a list from itself, in order, empties it
(the shape of the JS `for (x of Array.from(set)) set.delete(x)` sweeps). -/
theorem foldl_erase_self {α : Type} [DecidableEq α] (l : List α) :
    l.foldl (fun acc x => acc.erase x) l = [] := by
  suffices h : ∀ (n : ℕ) (l : List α), l.length = n →
      l.foldl (fun acc x => acc.erase x) l = [] by
    exact h l.length l rfl
  intro n
  induction n with
  | zero => intro l hl; simp [List.length_eq_zero] at hl; simp [hl]
  | succ m ih =>
    intro l hl
    cases l with
    | nil => rfl
    | cons x t =>
      have h₁ : (x :: t).erase x = t := List.erase_cons_head x t
      have h₂ : t.length = m := by simpa using hl
      calc (x :: t).foldl (fun acc y => acc.erase y) (x :: t)
          = t.foldl (fun acc y => acc.erase y) ((x :: t).erase x) := rfl
        _ = t.foldl (fun acc y => acc.erase y) t := by rw [h₁]
        _ = [] := ih t h₂

/-! ## DSP helpers (`src/audio.js`, lines 98–157)

JS numbers are modelled as exact rationals; the host math functions that
have no computable rational counterpart are abstracted into `Transcend`.
Every builder is a deterministic function of a `Transcend` record and its
numeric arguments, mirroring the JS code's determinism relative to the
host math library. -/

/-- The transcendental host functions used by the DSP code
(`Math.sin`, `Math.tanh`, `Math.pow`, `Math.PI`). -/
structure Transcend where
  sin : ℚ → ℚ
  tanh : ℚ → ℚ
  pow : ℚ → ℚ → ℚ
  pi : ℚ

/-- Embeds `clamp(v, min, max)` (audio.js line 99). -/
def clampQ (v lo hi : ℚ) : ℚ :=
  if v < lo then lo else if v > hi then hi else v

/-- Embeds `pseudoRandom(i, seed)` (audio.js lines 100–103): fractional part of
`sin((i + seed·13.37)·12.9898)·43758.5453`. -/
def pseudoRandom (T : Transcend) (i seed : ℚ) : ℚ :=
  let x := T.sin ((i + seed * 13.37) * 12.9898) * 43758.5453
  x - (⌊x⌋ : ℚ)

/-- The per-index gain factor applied by `edgeFade` (audio.js lines 104–112):
the JS loop multiplies `data[i]` and `data[len-1-i]` by `i / fadeSamples`
for `i < fadeSamples`; since `fadeSamples ≤ len / 2` the two index ranges are
disjoint, so the loop equals one index-aware map with this factor. -/
def edgeFactor (len fs i : ℕ) : ℚ :=
  if i < fs then (i : ℚ) / (fs : ℚ)
  else if len - 1 - i < fs then ((len - 1 - i : ℕ) : ℚ) / (fs : ℚ)
  else 1

/-- Embeds `edgeFade(data, sampleRate, seconds)` (audio.js lines 104–112). -/
def edgeFade (data : List ℚ) (sampleRate seconds : ℚ) : List ℚ :=
  if seconds = 0 then data
  else
    mapIdxFrom
      (fun i x =>
        x * edgeFactor data.length
          (min (⌊seconds * sampleRate⌋.toNat) (data.length / 2)) i)
      0 data

/-- The running peak scan of `normalize` (audio.js lines 115–119):
`peak = 0; for i: if (|data[i]| > peak) peak = |data[i]|`. -/
def peakAbs (data : List ℚ) : ℚ :=
  data.foldl (fun p x => max p |x|) 0

/-- Embeds `normalize(data, target)` (audio.js lines 113–123); named `normalizePeak`
here because Mathlib already declares a root-level `normalize`. -/
def normalizePeak (data : List ℚ) (target : ℚ) : List ℚ :=
  if target = 0 then data
  else if peakAbs data ≤ 0 then data
  else data.map (fun x => x * (target / peakAbs data))

/-- Embeds `saturate(data, drive)` (audio.js lines 124–128). -/
def saturate (T : Transcend) (data : List ℚ) (drive : ℚ) : List ℚ :=
  if drive = 0 then data
  else data.map (fun x => T.tanh (x * drive))

/-- The sound specification records of audio.js (`SOUND_SPECS`, lines
345–357).  Every entry of the table defines `duration`, `edgeFade` and
`target`, so the `?? 0.02` / `?? 0.85` fallbacks of `finalizeChannel`
never fire for table specs; the fields are therefore plain rationals.
`saturate := 0` models an absent (falsy) `spec.saturate`. -/
structure SoundSpec where
  duration : ℚ
  edgeFade : ℚ
  target : ℚ
  saturate : ℚ := 0
  loop : Bool := false
  builder : Transcend → ℚ → ℕ → List ℚ → List ℚ

/-- The channel state just before normalization: edge fade followed by the
optional saturation pass (`finalizeChannel` before its `normalize` call,
audio.js lines 129–133). -/
def preNormalize (T : Transcend) (data : List ℚ) (sampleRate : ℚ)
    (spec : SoundSpec) : List ℚ :=
  let d₁ := edgeFade data sampleRate spec.edgeFade
  if spec.saturate = 0 then d₁ else saturate T d₁ spec.saturate

/-- Embeds `finalizeChannel(data, sampleRate, spec)` (audio.js lines 129–134). -/
def finalizeChannel (T : Transcend) (data : List ℚ) (sampleRate : ℚ)
    (spec : SoundSpec) : List ℚ :=
  normalizePeak (preNormalize T data sampleRate spec) spec.target

/-- Options record of `addBlip` (audio.js lines 135–157).  A JS numeric
`freq` is modelled as the constant function; defaults mirror
`opts.amp ?? 0.5`, `opts.envPower ?? 1.4`, `opts.phase || 0`,
`opts.phaseOffset || 0`, and an absent `opts.harmonics`. -/
structure BlipOpts where
  start : ℚ
  dur : ℚ
  freq : ℚ → ℚ
  amp : ℚ := 0.5
  envPower : ℚ := 1.4
  phase : ℚ := 0
  phaseOffset : ℚ := 0
  harmonics : List ℚ := []

/-- Embeds `Math.max(0, Math.floor(opts.start * sampleRate))` (audio.js line 136). -/
def blipStart (sampleRate : ℚ) (o : BlipOpts) : ℤ :=
  max 0 ⌊o.start * sampleRate⌋

/-- Embeds `Math.min(data.length, Math.floor((opts.start + opts.dur) * sampleRate))`
(audio.js line 137). -/
def blipEnd (len : ℕ) (sampleRate : ℚ) (o : BlipOpts) : ℤ :=
  min (len : ℤ) ⌊(o.start + o.dur) * sampleRate⌋

/-- The per-sample body of `addBlip`'s loop (audio.js lines 142–156),
threading the running oscillator phase and adding into the sample. -/
def blipStep (T : Transcend) (sampleRate : ℚ) (o : BlipOpts) (s0 e0 : ℤ)
    (i : ℕ) (phase : ℚ) (x : ℚ) : ℚ × ℚ :=
  if s0 ≤ (i : ℤ) ∧ (i : ℤ) < e0 then
    let ratio : ℚ := ((i : ℚ) - (s0 : ℚ)) / ((e0 : ℚ) - (s0 : ℚ))
    let f := o.freq ratio
    let phase₁ := phase + (2 * T.pi * f) / sampleRate
    let wave := T.sin (phase₁ + o.phaseOffset)
    let wave₁ := (o.harmonics.foldl
      (fun (p : ℚ × ℕ) level => (p.1 + T.sin (phase₁ * (p.2 : ℚ)) * level, p.2 + 1))
      (wave, 2)).1
    let env := T.pow (T.sin (T.pi * clampQ ratio 0 1)) o.envPower
    (phase₁, x + wave₁ * o.amp * env)
  else (phase, x)

/-- Embeds `addBlip(data, sampleRate, opts)` (audio.js lines 135–157). -/
def addBlip (T : Transcend) (data : List ℚ) (sampleRate : ℚ)
    (o : BlipOpts) : List ℚ :=
  let s0 := blipStart sampleRate o
  let e0 := blipEnd data.length sampleRate o
  if e0 ≤ s0 then data
  else mapAccumIdx (blipStep T sampleRate o s0 e0) 0 o.phase data

/-! ## Procedural builders (`src/audio.js`, lines 159–342)

Each builder fills one channel; `d` is the channel buffer, `sr` the sample
rate, `ch` the channel index.  JS boolean tests on `ch` become `ch ≠ 0`. -/

/-- Embeds `buildIntro(d, sr, ch)` (audio.js lines 160–182). -/
def buildIntro (T : Transcend) (sr : ℚ) (ch : ℕ) (d : List ℚ) : List ℚ :=
  mapAccumIdx
    (fun i (ph : ℚ × ℚ × ℚ) _ =>
      let t : ℚ := (i : ℚ) / sr
      let sweepFreq := 110 + 80 * T.pow t 1.1
      let phaseMain := ph.1 + (2 * T.pi * sweepFreq) / sr
      let subFreq := 45 + 14 * T.sin (t * 2 * T.pi * 0.25 + (ch : ℚ) * 0.2)
      let phaseSub := ph.2.1 + (2 * T.pi * subFreq) / sr
      let shimmerFreq := 420 + 60 * T.sin (t * 2 * T.pi * 0.6)
      let phaseShimmer := ph.2.2 + (2 * T.pi * shimmerFreq) / sr
      let envUp := min 1 (t / 0.35)
      let envDown := T.pow (max 0 (1 - t / 2.6)) 1.4
      let env := envUp * envDown
      let sample := 0.58 * T.sin phaseMain
      let sample := sample + 0.3 * T.sin phaseSub
      let sample := sample +
        0.18 * T.sin (phaseShimmer + (ch : ℚ) * 0.3) *
          (0.7 + 0.3 * T.sin (t * 2 * T.pi * 0.5))
      let sample := sample + 0.1 * T.sin (phaseMain * 2) * envUp
      ((phaseMain, phaseSub, phaseShimmer), sample * env))
    0 (0, 0, 0) d

/-- Embeds `buildDeployment(d, sr, ch)` (audio.js lines 184–206): four indexed hits
of two blips each, then a noise/bed loop with a running `noisePhase`. -/
def buildDeployment (T : Transcend) (sr : ℚ) (ch : ℕ) (d : List ℚ) : List ℚ :=
  let hits : List (ℚ × ℕ) := [(0, 0), (0.35, 1), (0.7, 2), (1.15, 3)]
  let d :=
    hits.foldl
      (fun d h =>
        let base : ℚ := 170 + (h.2 : ℚ) * 24
        let d := addBlip T d sr
          { start := h.1, dur := 0.22,
            freq := fun r => base * (1 + 0.18 * (1 - r)) * (if ch ≠ 0 then 0.98 else 1.02),
            amp := 0.58, envPower := 1.15, harmonics := [0.35] }
        addBlip T d sr
          { start := h.1 + 0.08, dur := 0.28, freq := fun _ => base / 2,
            amp := 0.26, envPower := 1.2 })
      d
  mapAccumIdx
    (fun i noisePhase x =>
      let t : ℚ := (i : ℚ) / sr
      let noisePhase := noisePhase + (2 * T.pi * 0.5) / sr
      let pulse := (T.sin noisePhase + 1) * 0.5
      let grit := (pseudoRandom T (i : ℚ) (3 + (ch : ℚ) * 11) - 0.5) * 0.22 * pulse
      let x := x + grit
      let bed := 0.08 * T.sin (2 * T.pi * 52 * t) * (0.4 + 0.6 * pulse)
      (noisePhase, x + bed))
    0 0 d

/-- Embeds `buildBackground(d, sr, ch)` (audio.js lines 208–224). -/
def buildBackground (T : Transcend) (sr : ℚ) (ch : ℕ) (d : List ℚ) : List ℚ :=
  mapAccumIdx
    (fun i (ph : ℚ × ℚ) _ =>
      let t : ℚ := (i : ℚ) / sr
      let drift := 1 + 0.03 * T.sin (t * 2 * T.pi * 0.08 + (ch : ℚ) * 0.17)
      let base := 55 * drift * (if ch ≠ 0 then 0.997 else 1.003)
      let phaseLow := ph.1 + (2 * T.pi * base) / sr
      let midFreq := base * 2.02 + 12 * T.sin (t * 2 * T.pi * 0.18)
      let phaseMid := ph.2 + (2 * T.pi * midFreq) / sr
      let low := 0.5 * T.sin phaseLow
      let mid := 0.3 * T.sin phaseMid
      let noise := (pseudoRandom T (i : ℚ) ((ch : ℚ) * 21) - 0.5) * 0.2
      let pulse := 0.5 + 0.5 * T.sin (t * 2 * T.pi * 0.5)
      ((phaseLow, phaseMid), low + mid + noise * (0.4 + 0.6 * pulse)))
    0 (0, 0) d

/-- Embeds `buildSanity(d, sr, ch)` (audio.js lines 226–243). -/
def buildSanity (T : Transcend) (sr : ℚ) (ch : ℕ) (d : List ℚ) : List ℚ :=
  let pulses : List (ℚ × ℕ) := [(0, 0), (0.58, 1), (1.16, 2)]
  let d :=
    pulses.foldl
      (fun d p =>
        let base : ℚ := 420 - (p.2 : ℚ) * 30
        let d := addBlip T d sr
          { start := p.1, dur := 0.28, freq := fun r => base * (1 - 0.22 * r),
            amp := 0.62, envPower := 1.35, phaseOffset := (ch : ℚ) * 0.2,
            harmonics := [0.2] }
        addBlip T d sr
          { start := p.1 + 0.12, dur := 0.36, freq := fun _ => 90,
            amp := 0.24, envPower := 1.1 })
      d
  mapAccumIdx
    (fun i _ x =>
      let t : ℚ := (i : ℚ) / sr
      let trem := 0.5 + 0.5 * T.sin (t * 2 * T.pi * 6)
      let grit := (pseudoRandom T (i : ℚ) (7 + (ch : ℚ) * 19) - 0.5) * 0.16 * trem
      ((), x + grit))
    0 () d

/-- Embeds `buildGameOver(d, sr, ch)` (audio.js lines 245–258). -/
def buildGameOver (T : Transcend) (sr : ℚ) (ch : ℕ) (d : List ℚ) : List ℚ :=
  mapAccumIdx
    (fun i phase _ =>
      let t : ℚ := (i : ℚ) / sr
      let sweep := 160 - 120 * (t / 3.3)
      let freq := clampQ sweep 32 220
      let phase := phase + (2 * T.pi * freq) / sr
      let env := T.pow (max 0 (1 - t / 3.3)) 1.3
      let sample := 0.6 * T.sin phase
      let sample := sample + 0.25 * T.sin (phase * 0.5 + (ch : ℚ) * 0.4)
      let rumble := (pseudoRandom T (i : ℚ) (31 + (ch : ℚ) * 9) - 0.5) * 0.35 * env
      (phase, sample * env + rumble))
    0 0 d

/-- One fanfare tone of `buildVictory` (audio.js lines 261–267). -/
structure VictoryTone where
  start : ℚ
  dur : ℚ
  freq : ℚ
  amp : ℚ
  idx : ℕ

/-- Embeds `buildVictory(d, sr, ch)` (audio.js lines 260–285). -/
def buildVictory (T : Transcend) (sr : ℚ) (ch : ℕ) (d : List ℚ) : List ℚ :=
  let tones : List VictoryTone :=
    [⟨0, 0.45, 196, 0.42, 0⟩, ⟨0.22, 0.55, 247, 0.4, 1⟩, ⟨0.45, 0.7, 294, 0.46, 2⟩,
     ⟨0.9, 0.9, 392, 0.48, 3⟩, ⟨1.4, 1.1, 523, 0.42, 4⟩]
  let d :=
    tones.foldl
      (fun d tone =>
        addBlip T d sr
          { start := tone.start, dur := tone.dur,
            freq := fun r => tone.freq * (1 + 0.015 * T.sin (r * T.pi * 6 + (ch : ℚ) * 0.5)),
            amp := tone.amp, envPower := 1.05,
            harmonics := if tone.idx % 2 = 0 then [0.18, 0.06] else [0.12],
            phaseOffset := (ch : ℚ) * 0.15 })
      d
  mapAccumIdx
    (fun i _ x =>
      let t : ℚ := (i : ℚ) / sr
      let shimmer := T.sin (2 * T.pi * (680 + (ch : ℚ) * 12) * t)
      let env := T.pow (max 0 (1 - t / 3.2)) 1.6
      let spark := (pseudoRandom T (i : ℚ) (101 + (ch : ℚ) * 3) - 0.5) * 0.18 * env
      ((), x + shimmer * env * 0.08 + spark))
    0 () d

/-- One frequency-swept tone of `buildPickup` / `buildHeal`
(audio.js lines 289–292, 303–306). -/
structure SweepTone where
  start : ℚ
  dur : ℚ
  f0 : ℚ
  f1 : ℚ
  amp : ℚ

/-- Embeds `buildPickup(d, sr, ch)` (audio.js lines 288–300). -/
def buildPickup (T : Transcend) (sr : ℚ) (ch : ℕ) (d : List ℚ) : List ℚ :=
  let tones : List SweepTone :=
    [⟨0, 0.10, 660, 880, 0.5⟩, ⟨0.11, 0.10, 990, 1320, 0.45⟩]
  tones.foldl
    (fun d t =>
      addBlip T d sr
        { start := t.start, dur := t.dur, amp := t.amp,
          freq := fun r => t.f0 + (t.f1 - t.f0) * r,
          envPower := 1.2, harmonics := [0.15] })
    d

/-- Embeds `buildHeal(d, sr, ch)` (audio.js lines 302–314). -/
def buildHeal (T : Transcend) (sr : ℚ) (ch : ℕ) (d : List ℚ) : List ℚ :=
  let tones : List SweepTone :=
    [⟨0, 0.14, 420, 560, 0.42⟩, ⟨0.10, 0.18, 560, 700, 0.38⟩]
  tones.foldl
    (fun d t =>
      addBlip T d sr
        { start := t.start, dur := t.dur, amp := t.amp,
          freq := fun r => t.f0 + (t.f1 - t.f0) * r,
          envPower := 1.3, harmonics := [0.1] })
    d

/-- Embeds `buildMine(d, sr, ch)` (audio.js lines 316–324). -/
def buildMine (T : Transcend) (sr : ℚ) (ch : ℕ) (d : List ℚ) : List ℚ :=
  let d := addBlip T d sr
    { start := 0, dur := 0.35, freq := fun r => 200 * (1 - r) + 60,
      amp := 0.7, envPower := 1.2, harmonics := [0.25, 0.12] }
  mapAccumIdx
    (fun i _ x =>
      let t : ℚ := (i : ℚ) / sr
      let env := T.pow (max 0 (1 - t / 0.45)) 1.1
      let noise := (pseudoRandom T (i : ℚ) (77 + (ch : ℚ) * 3) - 0.5) * 0.9 * env
      ((), x + noise))
    0 () d

/-- Embeds `buildSanityTick(d, sr, ch)` (audio.js lines 326–329). -/
def buildSanityTick (T : Transcend) (sr : ℚ) (ch : ℕ) (d : List ℚ) : List ℚ :=
  let d := addBlip T d sr
    { start := 0, dur := 0.06, freq := fun _ => 880, amp := 0.35,
      envPower := 1.6, harmonics := [0.1] }
  addBlip T d sr
    { start := 0.05, dur := 0.05, freq := fun _ => 660, amp := 0.28, envPower := 1.5 }

/-- Embeds `buildLevelUp(d, sr, ch)` (audio.js lines 332–342). -/
def buildLevelUp (T : Transcend) (sr : ℚ) (ch : ℕ) (d : List ℚ) : List ℚ :=
  let d := addBlip T d sr
    { start := 0, dur := 0.18, freq := fun r => 220 + 880 * r,
      amp := 0.5, envPower := 1.3, harmonics := [0.18, 0.08] }
  let d := addBlip T d sr
    { start := 0.04, dur := 0.08, freq := fun _ => 150, amp := 0.35, envPower := 1.8 }
  let d := addBlip T d sr
    { start := 0.12, dur := 0.20, freq := fun r => 880 + 220 * T.sin (r * T.pi),
      amp := 0.38, envPower := 1.2, harmonics := [0.15] }
  mapAccumIdx
    (fun i _ x =>
      let t : ℚ := (i : ℚ) / sr
      let env := T.pow (max 0 (1 - t / 0.35)) 1.5
      let spark := (pseudoRandom T (i : ℚ) (333 + (ch : ℚ)) - 0.5) * 0.08 * env
      ((), x + spark))
    0 () d

/-- The spec table `SOUND_SPECS` (audio.js lines 345–357). -/
def SOUND_SPECS : String → Option SoundSpec
  | "intro" => some { duration := 2.7, edgeFade := 0.03, target := 0.82, builder := buildIntro }
  | "deployment" => some { duration := 2.0, edgeFade := 0.02, target := 0.86, builder := buildDeployment }
  | "background" => some { duration := 8.0, edgeFade := 0.05, target := 0.52, loop := true, builder := buildBackground }
  | "sanity" => some { duration := 1.8, edgeFade := 0.025, target := 0.88, builder := buildSanity }
  | "gameover" => some { duration := 3.4, edgeFade := 0.04, target := 0.85, builder := buildGameOver }
  | "victory" => some { duration := 3.2, edgeFade := 0.03, target := 0.90, builder := buildVictory }
  | "pickup" => some { duration := 0.28, edgeFade := 0.01, target := 0.90, builder := buildPickup }
  | "heal" => some { duration := 0.30, edgeFade := 0.01, target := 0.90, builder := buildHeal }
  | "mine" => some { duration := 0.50, edgeFade := 0.02, target := 0.90, builder := buildMine }
  | "sanity_tick" => some { duration := 0.12, edgeFade := 0.01, target := 0.90, builder := buildSanityTick }
  | "levelup" => some { duration := 0.40, edgeFade := 0.02, target := 0.90, builder := buildLevelUp }
  | _ => none

/-! ## Buffer provider and asset-path configuration
(`src/audio.js`, lines 76–89, 395–413, 489–551)

The provider state gathers the caches the JS manager keeps: the asset-path
table `files`, the decoded-buffer cache `fileBuffers`, the in-flight load
map `bufferPromises` (both keyed by asset path) and the procedural buffer
cache `buffers` (keyed by sound name).  The asynchronous
fetch→decode→cache chain of `obtainBuffer` is collapsed into one step
driven by an external success/failure oracle: the net effect of the JS
promise chain (set the promise, then on settlement delete it and either
cache the decoded buffer or fall back) is applied atomically. -/

/-- Embeds `DEFAULT_FILE_MAP` (audio.js lines 76–89). -/
def DEFAULT_FILE_MAP : List (String × String) :=
  [("intro", "audio/intro.mp3"),
   ("deployment", "audio/deployment.mp3"),
   ("background", "audio/background_loop.mp3"),
   ("sanity", "audio/sanity_low.mp3"),
   ("gameover", "audio/gameover.mp3"),
   ("victory", "audio/victory.mp3"),
   ("pickup", "audio/sfx/pickup.mp3"),
   ("heal", "audio/sfx/heal.mp3"),
   ("mine", "audio/sfx/mine.mp3"),
   ("sanity_tick", "audio/sfx/sanity-tick.mp3"),
   ("levelup", "audio/sfx/levelup.mp3")]

/-- Buffer-provider state of the `AudioManager` (audio.js lines 366–376). -/
structure FilesState where
  files : List (String × String)
  fileBuffers : List String
  bufferPromises : List String
  buffers : List String

/-- A value appearing in a `configureFiles` override map.  JS distinguishes
non-empty-after-trim strings (install override), `null`/`false` (remove
override) and anything else (ignored). -/
inductive OverrideVal : Type
  | strVal (s : String)
  | nullVal
  | falseVal
  | otherVal
deriving DecidableEq

/-- One iteration of the `_applyFileOverrides` loop (audio.js lines 397–404):
unknown keys are skipped, trimmed non-empty strings installed,
`null`/`false` removed. -/
def applyOverride (files : List (String × String)) (kv : String × OverrideVal) :
    List (String × String) :=
  if (SOUND_SPECS kv.1).isNone then files
  else
    match kv.2 with
    | OverrideVal.strVal s => if s.trim ≠ "" then insertA files kv.1 s.trim else files
    | OverrideVal.nullVal => eraseA files kv.1
    | OverrideVal.falseVal => eraseA files kv.1
    | OverrideVal.otherVal => files

/-- Embeds `_applyFileOverrides(map)` (audio.js lines 395–405), applied to a files
table.  A JS object literal has unique keys; override maps are association
lists whose key list is assumed `Nodup` where it matters. -/
def applyFileOverrides (files : List (String × String))
    (m : List (String × OverrideVal)) : List (String × String) :=
  m.foldl applyOverride files

/-- Embeds `configureFiles(map)` (audio.js lines 407–413): reset to defaults, apply
overrides, invalidate the decoded-buffer cache and the in-flight map. -/
def configureFiles (s : FilesState) (m : List (String × OverrideVal)) : FilesState :=
  { s with
      files := applyFileOverrides DEFAULT_FILE_MAP m,
      fileBuffers := [],
      bufferPromises := [] }

/-- Where the buffer returned by one `obtainBuffer` resolution came from. -/
inductive BufSource : Type
  | fileCached
  | filePending
  | fileFetched
  | procedural
deriving DecidableEq

/-- Result of one collapsed `obtainBuffer` resolution: whether a retrieval
request was issued, and the settled promise value.  The JS `.catch` handler
returns `generateBuffer(name)` instead of rethrowing, so a failure settles
as `Except.ok BufSource.procedural`; `Except.error` would model a rejection
surfacing to the caller, which no branch produces. -/
structure ObtainResult where
  fetched : Bool
  res : Except String BufSource

/-- Embeds `generateBuffer(name)` (audio.js lines 489–505) as it affects provider
state: cache the procedurally built buffer under the sound name. -/
def generateBufferS (s : FilesState) (name : String) : FilesState :=
  { s with buffers := name :: s.buffers }

/-- Embeds `obtainBuffer(name)` (audio.js lines 507–551), with the asynchronous
fetch/decode chain collapsed into one atomic step; `ok` is the oracle for
whether the retrieval and decode succeed.  On failure the `.catch` handler
(lines 540–546) deletes the in-flight entry, the decoded-buffer entry and
the asset-path mapping, then resolves with the procedural buffer. -/
def obtainBuffer (ok : Bool) (s : FilesState) (name : String) :
    ObtainResult × FilesState :=
  match lookupA s.files name with
  | some key =>
    if key ∈ s.fileBuffers then
      ({ fetched := false, res := Except.ok BufSource.fileCached }, s)
    else if key ∈ s.bufferPromises then
      ({ fetched := false, res := Except.ok BufSource.filePending }, s)
    else if ok then
      ({ fetched := true, res := Except.ok BufSource.fileFetched },
        { s with fileBuffers := key :: s.fileBuffers })
    else
      ({ fetched := true, res := Except.ok BufSource.procedural },
        generateBufferS
          { s with
              bufferPromises := s.bufferPromises.erase key,
              fileBuffers := s.fileBuffers.erase key,
              files := eraseA s.files name }
          name)
  | none =>
    ({ fetched := false, res := Except.ok BufSource.procedural },
      generateBufferS s name)

/-- Operations that touch provider state between two resolutions. -/
inductive FilesOp : Type
  | obtain (ok : Bool) (name : String)
  | configure (m : List (String × OverrideVal))

/-- Whether an operation is a reconfiguration (`configureFiles`). -/
def FilesOp.isConfigure : FilesOp → Bool
  | FilesOp.obtain _ _ => false
  | FilesOp.configure _ => true

/-- Apply one provider operation to the state. -/
def stepFilesOp (s : FilesState) : FilesOp → FilesState
  | FilesOp.obtain ok name => (obtainBuffer ok s name).2
  | FilesOp.configure m => configureFiles s m

/-- Run a sequence of provider operations. -/
def runFilesOps (s : FilesState) (ops : List FilesOp) : FilesState :=
  ops.foldl stepFilesOp s

/-! ## Playback manager: loops, intents, one-shots
(`src/audio.js`, lines 562–736)

The registry slice of the `AudioManager` is made explicit.  `play` wraps
every buffer resolution in a promise, so the attach-and-start of a loop
never runs synchronously inside `startBackground`; it is modelled as a
`LoopCont` record capturing the name and intent token at request time,
appended to a queue and run later.  The readiness gate is assumed open
(`ready = true`), which is the worst case for the races at issue: the
continuation can still interleave with stops.  `started` counts the
`source.start()` calls of the loop path, i.e. playback instances actually
attached and started. -/

/-- A pending loop-path buffer resolution: the continuation of
`_playNow` (audio.js lines 574, 598–618) with its captured
`name` and `opts._intent`. -/
structure LoopCont where
  name : String
  intent : Option ℕ
deriving DecidableEq

/-- Registry slice of the `AudioManager` (audio.js lines 360–383):
active-loop registry, pending-loop set, intent table, one-shot registry
(handle ids), intent counter, pending continuations, and the count of loop
sources started. -/
structure EngineState where
  loops : List String
  pendingLoops : List String
  loopIntents : List (String × ℕ)
  oneShots : List ℕ
  loopSeed : ℕ
  conts : List LoopCont
  started : ℕ
deriving DecidableEq

/-- Fade options accepted by the stop entry points (`opts.fade`,
`opts.immediate`).  They only reshape the gain ramps scheduled on the
audio device, which is outside this state model; the registry effects
below do not depend on them. -/
structure StopOpts where
  fade : Option ℚ := none
  immediate : Bool := false

/-- Embeds `stopOneShots(opts)` (audio.js lines 650–666): iterate a snapshot of
the registry, stop each source, and delete each handle. -/
def stopOneShots (s : EngineState) : EngineState :=
  { s with oneShots := s.oneShots.foldl (fun acc h => acc.erase h) s.oneShots }

/-- The loop path of `_playNow`'s resolution continuation (audio.js lines
598–618), run when the buffer promise settles: abandon if a truthy captured
intent no longer matches the stored intent, or if an instance already
exists for the name; otherwise start the source, register the instance,
and (for intent-carrying starts) clear the pending marker and re-store the
intent. -/
def resolveCont (s : EngineState) (c : LoopCont) : EngineState :=
  match c.intent with
  | some tok =>
    if tok ≠ 0 ∧ lookupA s.loopIntents c.name ≠ some tok then s
    else if c.name ∈ s.loops then s
    else
      let s₁ := { s with loops := c.name :: s.loops, started := s.started + 1 }
      if tok ≠ 0 then
        { s₁ with
            pendingLoops := s₁.pendingLoops.erase c.name,
            loopIntents := insertA s₁.loopIntents c.name tok }
      else s₁
  | none =>
    if c.name ∈ s.loops then s
    else { s with loops := c.name :: s.loops, started := s.started + 1 }

/-- Run every queued continuation, in order (promise settlement order). -/
def drainConts (s : EngineState) : EngineState :=
  s.conts.foldl resolveCont { s with conts := [] }

/-- Embeds `startBackground(opts)` (audio.js lines 712–727): fade out lingering
one-shots, no-op if the loop is already active or pending, otherwise mint
a fresh intent token, mark pending, record the intent, and issue the
playback request (which queues the resolution continuation). -/
def startBackground (s : EngineState) : EngineState :=
  let s₁ := stopOneShots s
  if "background" ∈ s₁.loops ∨ "background" ∈ s₁.pendingLoops then s₁
  else
    { s₁ with
        loopSeed := s₁.loopSeed + 1,
        pendingLoops := "background" :: s₁.pendingLoops,
        loopIntents := insertA s₁.loopIntents ("background") (s₁.loopSeed + 1),
        conts := s₁.conts ++ [⟨"background", some (s₁.loopSeed + 1)⟩] }

/-- Embeds `stopLoop(name, opts)` (audio.js lines 689–705): clear the pending
marker and the stored intent immediately, then remove and stop the active
instance if one exists. -/
def stopLoop (s : EngineState) (name : String) : EngineState :=
  let s₁ :=
    { s with
        pendingLoops := s.pendingLoops.erase name,
        loopIntents := eraseA s.loopIntents name }
  if name ∈ s₁.loops then { s₁ with loops := s₁.loops.erase name } else s₁

/-- Embeds `hardStopAll(opts)` (audio.js lines 668–687): stop and delete every
active loop from a snapshot of the registry, clear the pending set,
replace the intent table with a fresh empty one, then `stopOneShots`. -/
def hardStopAll (_opts : StopOpts) (s : EngineState) : EngineState :=
  let s₁ := { s with loops := s.loops.foldl (fun acc n => acc.erase n) s.loops }
  let s₂ := { s₁ with pendingLoops := [], loopIntents := [] }
  stopOneShots s₂

/-! ## Rate-limited sanity cue (`src/audio.js`, lines 741–748) -/

/-- The slice of manager state behind `playSanityLow`: the last-accepted
timestamp, the cooldown (initialised to `2.2` seconds, audio.js line 375),
and a count of accepted playbacks (`this.play('sanity', …)` calls). -/
structure SanityState where
  lastSanityAt : ℚ
  sanityCooldown : ℚ
  accepted : ℕ
deriving DecidableEq

/-- Embeds `playSanityLow()` at clock value `now = ctx.currentTime` (audio.js
lines 741–748): drop the call if it falls inside the cooldown window of
the last accepted one, otherwise record the timestamp and play. -/
def playSanityLow (now : ℚ) (s : SanityState) : SanityState :=
  if now - s.lastSanityAt < s.sanityCooldown then s
  else { s with lastSanityAt := now, accepted := s.accepted + 1 }

/-! ## Lemmas about the channel finalizer -/

theorem le_foldl_peak (l : List ℚ) (a : ℚ) :
    a ≤ l.foldl (fun p x => max p |x|) a := by
  induction l generalizing a with
  | nil => simp
  | cons x xs ih =>
    calc a ≤ max a |x| := le_max_left a |x|
      _ ≤ xs.foldl (fun p y => max p |y|) (max a |x|) := ih (max a |x|)
      _ = (x :: xs).foldl (fun p y => max p |y|) a := rfl

theorem peakAbs_nonneg (l : List ℚ) : 0 ≤ peakAbs l :=
  le_foldl_peak l 0

theorem foldl_peak_map_mul (l : List ℚ) (g a : ℚ) (hg : 0 ≤ g) :
    (l.map (fun x => x * g)).foldl (fun p x => max p |x|) (a * g) =
      (l.foldl (fun p x => max p |x|) a) * g := by
  induction l generalizing a with
  | nil => rfl
  | cons x xs ih =>
    have habs : |x * g| = |x| * g := by
      rw [abs_mul, abs_of_nonneg hg]
    have hmax : max (a * g) (|x| * g) = max a |x| * g :=
      (max_mul_of_nonneg a |x| hg).symm
    calc ((x :: xs).map (fun y => y * g)).foldl (fun p y => max p |y|) (a * g)
        = (xs.map (fun y => y * g)).foldl (fun p y => max p |y|) (max (a * g) |x * g|) := rfl
      _ = (xs.map (fun y => y * g)).foldl (fun p y => max p |y|) (max a |x| * g) := by
          rw [habs, hmax]
      _ = (xs.foldl (fun p y => max p |y|) (max a |x|)) * g := ih (max a |x|)
      _ = ((x :: xs).foldl (fun p y => max p |y|) a) * g := rfl

theorem peakAbs_map_mul (l : List ℚ) (g : ℚ) (hg : 0 ≤ g) :
    peakAbs (l.map (fun x => x * g)) = peakAbs l * g := by
  have h := foldl_peak_map_mul l g 0 hg
  simpa [peakAbs] using h

theorem peakAbs_of_all_zero (l : List ℚ) (h : ∀ x ∈ l, x = 0) : peakAbs l = 0 := by
  induction l with
  | nil => rfl
  | cons x xs ih =>
    have hx : x = 0 := h x (List.mem_cons_self x xs)
    have hxs : ∀ y ∈ xs, y = 0 := fun y hy => h y (List.mem_cons_of_mem x hy)
    calc peakAbs (x :: xs) = xs.foldl (fun p y => max p |y|) (max 0 |x|) := rfl
      _ = xs.foldl (fun p y => max p |y|) 0 := by rw [hx]; norm_num
      _ = 0 := ih hxs

/-- If the peak heading into `normalize` is nonzero and the target level is
positive, the normalized buffer's peak is exactly the target. -/
theorem normalizePeak_peak (data : List ℚ) (target : ℚ) (ht : 0 < target)
    (hp : peakAbs data ≠ 0) : peakAbs (normalizePeak data target) = target := by
  have hpos : 0 < peakAbs data := lt_of_le_of_ne (peakAbs_nonneg data) (Ne.symm hp)
  unfold normalizePeak
  rw [if_neg (ne_of_gt ht), if_neg (not_le.mpr hpos)]
  rw [peakAbs_map_mul data (target / peakAbs data) (le_of_lt (div_pos ht hpos))]
  field_simp

theorem mapIdxFrom_all_zero (f : ℕ → ℚ) (k : ℕ) (l : List ℚ)
    (h : ∀ x ∈ l, x = 0) : mapIdxFrom (fun i x => x * f i) k l = l := by
  induction l generalizing k with
  | nil => rfl
  | cons x xs ih =>
    have hx : x = 0 := h x (List.mem_cons_self x xs)
    have hxs : ∀ y ∈ xs, y = 0 := fun y hy => h y (List.mem_cons_of_mem x hy)
    simp [mapIdxFrom, hx, ih (k + 1) hxs]

theorem edgeFade_all_zero (data : List ℚ) (sampleRate seconds : ℚ)
    (h : ∀ x ∈ data, x = 0) : edgeFade data sampleRate seconds = data := by
  unfold edgeFade
  by_cases hs : seconds = 0
  · rw [if_pos hs]
  · rw [if_neg hs]
    exact mapIdxFrom_all_zero _ 0 data h

theorem saturate_all_zero (T : Transcend) (data : List ℚ) (drive : ℚ)
    (htanh : T.tanh 0 = 0) (h : ∀ x ∈ data, x = 0) :
    saturate T data drive = data := by
  unfold saturate
  by_cases hd : drive = 0
  · rw [if_pos hd]
  · rw [if_neg hd]
    induction data with
    | nil => rfl
    | cons x xs ih =>
      have hx : x = 0 := h x (List.mem_cons_self x xs)
      have hxs : ∀ y ∈ xs, y = 0 := fun y hy => h y (List.mem_cons_of_mem x hy)
      simp [hx, htanh, ih hxs]

theorem preNormalize_all_zero (T : Transcend) (data : List ℚ) (sampleRate : ℚ)
    (spec : SoundSpec) (htanh : T.tanh 0 = 0) (h : ∀ x ∈ data, x = 0) :
    preNormalize T data sampleRate spec = data := by
  unfold preNormalize
  rw [edgeFade_all_zero data sampleRate spec.edgeFade h]
  by_cases hs : spec.saturate = 0
  · rw [if_pos hs]
  · rw [if_neg hs]
    exact saturate_all_zero T data spec.saturate htanh h

theorem normalizePeak_all_zero (data : List ℚ) (target : ℚ)
    (h : ∀ x ∈ data, x = 0) : normalizePeak data target = data := by
  unfold normalizePeak
  by_cases ht : target = 0
  · rw [if_pos ht]
  · rw [if_neg ht, peakAbs_of_all_zero data h, if_pos le_rfl]

/-- C4: For every channel buffer and sound spec, after `finalizeChannel`
runs: if the buffer's maximum absolute sample before normalization is
nonzero then the finalized buffer's peak absolute sample equals the spec's
configured target level (exactly, in the exact-rational model of JS float
arithmetic), and if the buffer is identically zero it is left unchanged
(the divide-by-zero branch of `normalize` is never taken). -/
theorem finalizeChannel_correct (T : Transcend) (spec : SoundSpec)
    (data : List ℚ) (sampleRate : ℚ)
    (htanh : T.tanh 0 = 0) (htarget : 0 < spec.target) :
    (peakAbs (preNormalize T data sampleRate spec) ≠ 0 →
      peakAbs (finalizeChannel T data sampleRate spec) = spec.target)
    ∧ ((∀ x ∈ data, x = 0) → finalizeChannel T data sampleRate spec = data) := by
  constructor
  · intro hp
    unfold finalizeChannel
    exact normalizePeak_peak _ spec.target htarget hp
  · intro hz
    unfold finalizeChannel
    rw [preNormalize_all_zero T data sampleRate spec htanh hz]
    exact normalizePeak_all_zero data spec.target hz

/-- Witness for C4 at a concrete spec and the one-sample buffer `[1]`. -/
theorem finalizeChannel_correct_witness :
    (⟨fun _ => 0, fun _ => 0, fun _ _ => 0, 0⟩ : Transcend).tanh 0 = 0 ∧
    (0 : ℚ) < (⟨0.28, 0, 1/2, 0, false, buildPickup⟩ : SoundSpec).target ∧
    peakAbs (preNormalize ⟨fun _ => 0, fun _ => 0, fun _ _ => 0, 0⟩ [1] 1
      ⟨0.28, 0, 1/2, 0, false, buildPickup⟩) ≠ 0 ∧
    ((peakAbs (preNormalize ⟨fun _ => 0, fun _ => 0, fun _ _ => 0, 0⟩ [1] 1
        ⟨0.28, 0, 1/2, 0, false, buildPickup⟩) ≠ 0 →
      peakAbs (finalizeChannel ⟨fun _ => 0, fun _ => 0, fun _ _ => 0, 0⟩ [1] 1
        ⟨0.28, 0, 1/2, 0, false, buildPickup⟩) =
        (⟨0.28, 0, 1/2, 0, false, buildPickup⟩ : SoundSpec).target)
    ∧ ((∀ x ∈ [(1 : ℚ)], x = 0) →
      finalizeChannel ⟨fun _ => 0, fun _ => 0, fun _ _ => 0, 0⟩ [1] 1
        ⟨0.28, 0, 1/2, 0, false, buildPickup⟩ = [1])) :=
  ⟨rfl, by norm_num, by decide,
    finalizeChannel_correct ⟨fun _ => 0, fun _ => 0, fun _ _ => 0, 0⟩
      ⟨0.28, 0, 1/2, 0, false, buildPickup⟩ [1] 1 rfl (by norm_num)⟩

/-! ## Lemmas about `addBlip` -/

/-- Entries whose index satisfies the "untouched" predicate keep their
value through an accumulator-threading map whose step leaves such entries
alone (whatever the accumulator holds there). -/
theorem mapAccumIdx_getD_of_keep {σ : Type} (f : ℕ → σ → ℚ → σ × ℚ)
    (P : ℕ → Prop) (hf : ∀ i a x, P i → (f i a x).2 = x) :
    ∀ (l : List ℚ) (i₀ : ℕ) (a : σ) (j : ℕ), j < l.length → P (i₀ + j) →
      (mapAccumIdx f i₀ a l).getD j 0 = l.getD j 0 := by
  intro l
  induction l with
  | nil => intro i₀ a j hj _; simp at hj
  | cons x xs ih =>
    intro i₀ a j hj hPj
    cases j with
    | zero =>
      simp only [mapAccumIdx, List.getD_cons_zero]
      exact hf i₀ a x (by simpa using hPj)
    | succ m =>
      simp only [mapAccumIdx, List.getD_cons_succ]
      have hm : m < xs.length := by simpa using hj
      have hP : P ((i₀ + 1) + m) := by
        have : (i₀ + 1) + m = i₀ + (m + 1) := by omega
        rw [this]; exact hPj
      exact ih (i₀ + 1) (f i₀ a x).1 m hm hP

/-- C10: For every buffer, sample rate and blip options with nonnegative
start offset, `addBlip` modifies only the samples with index in
`[startIndex, endIndex)` (the end index clipped to the buffer length),
leaves every other sample unchanged, preserves the buffer length (so it
never touches an index outside the buffer), and is a no-op when the
computed end index does not exceed the start index. -/
theorem addBlip_frame (T : Transcend) (data : List ℚ) (sampleRate : ℚ)
    (o : BlipOpts) (hstart : 0 ≤ o.start) :
    (addBlip T data sampleRate o).length = data.length
    ∧ (∀ i : ℕ, i < data.length →
        ((i : ℤ) < blipStart sampleRate o ∨ blipEnd data.length sampleRate o ≤ (i : ℤ)) →
        (addBlip T data sampleRate o).getD i 0 = data.getD i 0)
    ∧ (blipEnd data.length sampleRate o ≤ blipStart sampleRate o →
        addBlip T data sampleRate o = data) := by
  by_cases hle : blipEnd data.length sampleRate o ≤ blipStart sampleRate o
  · have hres : addBlip T data sampleRate o = data := by
      simp only [addBlip, if_pos hle]
    exact ⟨by rw [hres], fun i _ _ => by rw [hres], fun _ => hres⟩
  · have hres : addBlip T data sampleRate o =
        mapAccumIdx
          (blipStep T sampleRate o (blipStart sampleRate o)
            (blipEnd data.length sampleRate o))
          0 o.phase data := by
      simp only [addBlip, if_neg hle]
    refine ⟨by rw [hres]; exact mapAccumIdx_length _ 0 o.phase data, ?_, fun h => absurd h hle⟩
    intro i hi hout
    rw [hres]
    have hkeep : ∀ (j : ℕ) (a : ℚ) (x : ℚ),
        ((j : ℤ) < blipStart sampleRate o ∨ blipEnd data.length sampleRate o ≤ (j : ℤ)) →
        (blipStep T sampleRate o (blipStart sampleRate o)
          (blipEnd data.length sampleRate o) j a x).2 = x := by
      intro j a x hj
      have hng : ¬(blipStart sampleRate o ≤ (j : ℤ) ∧
          (j : ℤ) < blipEnd data.length sampleRate o) := by
        rcases hj with hj | hj
        · exact fun hc => absurd hc.1 (not_le.mpr hj)
        · exact fun hc => absurd hc.2 (not_lt.mpr hj)
      simp only [blipStep, if_neg hng]
    have := mapAccumIdx_getD_of_keep
      (blipStep T sampleRate o (blipStart sampleRate o)
        (blipEnd data.length sampleRate o))
      (fun j => (j : ℤ) < blipStart sampleRate o ∨
        blipEnd data.length sampleRate o ≤ (j : ℤ))
      hkeep data 0 o.phase i hi (by simpa using hout)
    simpa using this

/-- Witness for C10 at a concrete buffer and a blip lying past its end. -/
theorem addBlip_frame_witness :
    (0 : ℚ) ≤ (⟨0, 0, fun _ => 0, 0.5, 1.4, 0, 0, []⟩ : BlipOpts).start ∧
    ((addBlip ⟨fun _ => 0, fun _ => 0, fun _ _ => 0, 0⟩ [1, 2] 1
        ⟨0, 0, fun _ => 0, 0.5, 1.4, 0, 0, []⟩).length = ([1, 2] : List ℚ).length
    ∧ (∀ i : ℕ, i < ([1, 2] : List ℚ).length →
        ((i : ℤ) < blipStart 1 ⟨0, 0, fun _ => 0, 0.5, 1.4, 0, 0, []⟩ ∨
          blipEnd ([1, 2] : List ℚ).length 1 ⟨0, 0, fun _ => 0, 0.5, 1.4, 0, 0, []⟩ ≤ (i : ℤ)) →
        (addBlip ⟨fun _ => 0, fun _ => 0, fun _ _ => 0, 0⟩ [1, 2] 1
          ⟨0, 0, fun _ => 0, 0.5, 1.4, 0, 0, []⟩).getD i 0 = ([1, 2] : List ℚ).getD i 0)
    ∧ (blipEnd ([1, 2] : List ℚ).length 1 ⟨0, 0, fun _ => 0, 0.5, 1.4, 0, 0, []⟩ ≤
          blipStart 1 ⟨0, 0, fun _ => 0, 0.5, 1.4, 0, 0, []⟩ →
        addBlip ⟨fun _ => 0, fun _ => 0, fun _ _ => 0, 0⟩ [1, 2] 1
          ⟨0, 0, fun _ => 0, 0.5, 1.4, 0, 0, []⟩ = [1, 2])) :=
  ⟨le_refl 0,
    addBlip_frame ⟨fun _ => 0, fun _ => 0, fun _ _ => 0, 0⟩ [1, 2] 1
      ⟨0, 0, fun _ => 0, 0.5, 1.4, 0, 0, []⟩ (le_refl 0)⟩

/-- C5: For every sound identifier, sample rate, channel index and buffer
length, two invocations of the identifier's waveform builder on
zero-initialized buffers of that length produce identical sample lists:
each builder in `SOUND_SPECS` is a pure function of the host math library
(`Transcend`), the sample rate, the channel index and the buffer, with all
noise drawn from the seeded `pseudoRandom`, so equal zero-initialized
inputs give bit-for-bit equal outputs. -/
theorem builders_deterministic (T : Transcend) (name : String) (spec : SoundSpec)
    (hspec : SOUND_SPECS name = some spec) (sr : ℚ) (ch : ℕ) (n : ℕ)
    (d₁ d₂ : List ℚ) (h₁ : d₁.length = n) (h₂ : d₂.length = n)
    (hz₁ : ∀ x ∈ d₁, x = 0) (hz₂ : ∀ x ∈ d₂, x = 0) :
    spec.builder T sr ch d₁ = spec.builder T sr ch d₂ := by
  have e₁ : d₁ = List.replicate n 0 := List.eq_replicate.mpr ⟨h₁, hz₁⟩
  have e₂ : d₂ = List.replicate n 0 := List.eq_replicate.mpr ⟨h₂, hz₂⟩
  rw [e₁, e₂]

/-- Witness for C5 at the `"pickup"` spec with two fresh two-sample
zero buffers. -/
theorem builders_deterministic_witness :
    SOUND_SPECS "pickup" = some ⟨0.28, 0.01, 0.90, 0, false, buildPickup⟩ ∧
    ([(0 : ℚ), 0].length = 2) ∧ (∀ x ∈ [(0 : ℚ), 0], x = 0) ∧
    (⟨0.28, 0.01, 0.90, 0, false, buildPickup⟩ : SoundSpec).builder
        ⟨fun _ => 0, fun _ => 0, fun _ _ => 0, 0⟩ 2 0 [0, 0] =
      (⟨0.28, 0.01, 0.90, 0, false, buildPickup⟩ : SoundSpec).builder
        ⟨fun _ => 0, fun _ => 0, fun _ _ => 0, 0⟩ 2 0 [0, 0] :=
  ⟨rfl, rfl, by decide,
    builders_deterministic ⟨fun _ => 0, fun _ => 0, fun _ _ => 0, 0⟩ "pickup"
      ⟨0.28, 0.01, 0.90, 0, false, buildPickup⟩ rfl 2 0 2 [0, 0] [0, 0]
      rfl rfl (by decide) (by decide)⟩

/-- C3: For every prior engine state and every stop options record, after
`hardStopAll(opts)` returns, the active-loop registry, the pending-loop
set, the intent table and the one-shot registry are all empty. -/
theorem hardStopAll_clears (opts : StopOpts) (s : EngineState) :
    (hardStopAll opts s).loops = []
    ∧ (hardStopAll opts s).pendingLoops = []
    ∧ (hardStopAll opts s).loopIntents = []
    ∧ (hardStopAll opts s).oneShots = [] := by
  simp [hardStopAll, stopOneShots, foldl_erase_self]

/-- C8: For the rate-limited sanity cue, two calls whose timestamps differ
by less than the cooldown produce exactly one accepted playback (the second
call is dropped and does not update the last-accepted timestamp), and two
calls whose timestamps differ by more than the cooldown produce two
accepted playbacks; the first call is assumed to fall outside the cooldown
window of the prior state. -/
theorem sanity_rate_limit (s : SanityState) (t₁ t₂ : ℚ)
    (h₁ : s.sanityCooldown ≤ t₁ - s.lastSanityAt) :
    (t₂ - t₁ < s.sanityCooldown →
      (playSanityLow t₂ (playSanityLow t₁ s)).accepted = s.accepted + 1
      ∧ (playSanityLow t₂ (playSanityLow t₁ s)).lastSanityAt = t₁)
    ∧ (s.sanityCooldown < t₂ - t₁ →
      (playSanityLow t₂ (playSanityLow t₁ s)).accepted = s.accepted + 2) := by
  have hfirst : playSanityLow t₁ s =
      { s with lastSanityAt := t₁, accepted := s.accepted + 1 } := by
    unfold playSanityLow
    rw [if_neg (not_lt.mpr h₁)]
  constructor
  · intro hlt
    have hsecond : playSanityLow t₂ ({ s with lastSanityAt := t₁, accepted := s.accepted + 1 }) =
        { s with lastSanityAt := t₁, accepted := s.accepted + 1 } := by
      unfold playSanityLow
      rw [if_pos (by simpa using hlt)]
    rw [hfirst, hsecond]
    exact ⟨rfl, rfl⟩
  · intro hgt
    have hsecond : playSanityLow t₂ ({ s with lastSanityAt := t₁, accepted := s.accepted + 1 }) =
        { s with lastSanityAt := t₂, accepted := s.accepted + 1 + 1 } := by
      unfold playSanityLow
      rw [if_neg (by simpa using not_lt.mpr (le_of_lt hgt))]
    rw [hfirst, hsecond]

/-- Witness for C8 at cooldown `11/5`, first call at `t = 3`, second calls
inside (`t = 7/2`) the window. -/
theorem sanity_rate_limit_witness :
    (⟨0, 11/5, 0⟩ : SanityState).sanityCooldown ≤
      3 - (⟨0, 11/5, 0⟩ : SanityState).lastSanityAt ∧
    (((7 / 2 : ℚ) - 3 < (⟨0, 11/5, 0⟩ : SanityState).sanityCooldown →
      (playSanityLow (7 / 2) (playSanityLow 3 ⟨0, 11/5, 0⟩)).accepted =
        (⟨0, 11/5, 0⟩ : SanityState).accepted + 1
      ∧ (playSanityLow (7 / 2) (playSanityLow 3 ⟨0, 11/5, 0⟩)).lastSanityAt = 3)
    ∧ ((⟨0, 11/5, 0⟩ : SanityState).sanityCooldown < (7 / 2 : ℚ) - 3 →
      (playSanityLow (7 / 2) (playSanityLow 3 ⟨0, 11/5, 0⟩)).accepted =
        (⟨0, 11/5, 0⟩ : SanityState).accepted + 2)) :=
  ⟨by norm_num, sanity_rate_limit ⟨0, 11/5, 0⟩ 3 (7 / 2) (by norm_num)⟩

/-- C1: If `stopLoop("background")` runs after a loop start was requested
(`startBackground`) but before its buffer resolution continuation runs,
then the continuation abandons: it never starts a playback instance (the
started-source count is unchanged across the whole scenario), the
active-loop registry has no entry for the name, and no intent survives. -/
theorem stop_pending_loop_abandons (s₀ : EngineState)
    (h₁ : "background" ∉ s₀.loops) (h₂ : "background" ∉ s₀.pendingLoops)
    (h₃ : s₀.conts = []) :
    "background" ∉ (drainConts (stopLoop (startBackground s₀) ("background"))).loops
    ∧ (drainConts (stopLoop (startBackground s₀) ("background"))).started = s₀.started
    ∧ lookupA (drainConts (stopLoop (startBackground s₀) ("background"))).loopIntents
        ("background") = none := by
  obtain ⟨L, P, I, O, seed, C, st⟩ := s₀
  simp only at h₁ h₂ h₃
  subst h₃
  have hsb : startBackground ⟨L, P, I, O, seed, [], st⟩ =
      ⟨L, "background" :: P, insertA I ("background") (seed + 1),
        O.foldl (fun acc h => acc.erase h) O, seed + 1,
        [⟨"background", some (seed + 1)⟩], st⟩ := by
    simp only [startBackground, stopOneShots]
    split
    · next hcond =>
        rcases hcond with hc | hc
        · exact absurd hc h₁
        · exact absurd hc h₂
    · rfl
  rw [hsb]
  generalize O.foldl (fun acc h => acc.erase h) O = Q
  have hsl : stopLoop
      ⟨L, "background" :: P, insertA I ("background") (seed + 1), Q, seed + 1,
        [⟨"background", some (seed + 1)⟩], st⟩ ("background") =
      ⟨L, P, eraseA (insertA I ("background") (seed + 1)) ("background"), Q, seed + 1,
        [⟨"background", some (seed + 1)⟩], st⟩ := by
    simp only [stopLoop]
    split
    · next hc => exact absurd hc h₁
    · next => simp [List.erase_cons_head]
  rw [hsl]
  have hdc : drainConts
      ⟨L, P, eraseA (insertA I ("background") (seed + 1)) ("background"), Q, seed + 1,
        [⟨"background", some (seed + 1)⟩], st⟩ =
      ⟨L, P, eraseA (insertA I ("background") (seed + 1)) ("background"), Q, seed + 1,
        [], st⟩ := by
    simp only [drainConts, List.foldl_cons, List.foldl_nil, resolveCont]
    split
    · next => rfl
    · next hcond =>
        exfalso
        apply hcond
        refine ⟨Nat.succ_ne_zero seed, ?_⟩
        rw [lookupA_eraseA_self]
        simp
  rw [hdc]
  exact ⟨h₁, rfl, lookupA_eraseA_self _ _⟩

/-- Witness for C1 from the freshly constructed (empty) engine state. -/
theorem stop_pending_loop_abandons_witness :
    ("background" ∉ (⟨[], [], [], [], 0, [], 0⟩ : EngineState).loops)
    ∧ ("background" ∉ (⟨[], [], [], [], 0, [], 0⟩ : EngineState).pendingLoops)
    ∧ ((⟨[], [], [], [], 0, [], 0⟩ : EngineState).conts = [])
    ∧ ("background" ∉
        (drainConts (stopLoop (startBackground ⟨[], [], [], [], 0, [], 0⟩)
          ("background"))).loops
      ∧ (drainConts (stopLoop (startBackground ⟨[], [], [], [], 0, [], 0⟩)
          ("background"))).started = (⟨[], [], [], [], 0, [], 0⟩ : EngineState).started
      ∧ lookupA (drainConts (stopLoop (startBackground ⟨[], [], [], [], 0, [], 0⟩)
          ("background"))).loopIntents ("background") = none) :=
  ⟨by decide, by decide, rfl,
    stop_pending_loop_abandons ⟨[], [], [], [], 0, [], 0⟩ (by decide) (by decide) rfl⟩

/-- C2: Calling `startBackground` twice in immediate succession, before the
first call's buffer resolution completes, yields exactly one entry in the
active-loop registry for the name and exactly one started playback
instance, never two: the second call hits the pending-loop guard and mints
no second continuation. -/
theorem double_start_single_instance (s₀ : EngineState)
    (h₁ : "background" ∉ s₀.loops) (h₂ : "background" ∉ s₀.pendingLoops)
    (h₃ : s₀.conts = []) :
    (drainConts (startBackground (startBackground s₀))).loops.count ("background") = 1
    ∧ (drainConts (startBackground (startBackground s₀))).started = s₀.started + 1 := by
  obtain ⟨L, P, I, O, seed, C, st⟩ := s₀
  simp only at h₁ h₂ h₃
  subst h₃
  have hsb : startBackground ⟨L, P, I, O, seed, [], st⟩ =
      ⟨L, "background" :: P, insertA I ("background") (seed + 1),
        O.foldl (fun acc h => acc.erase h) O, seed + 1,
        [⟨"background", some (seed + 1)⟩], st⟩ := by
    simp only [startBackground, stopOneShots]
    split
    · next hcond =>
        rcases hcond with hc | hc
        · exact absurd hc h₁
        · exact absurd hc h₂
    · rfl
  rw [hsb]
  generalize O.foldl (fun acc h => acc.erase h) O = Q
  have hsb2 : startBackground
      ⟨L, "background" :: P, insertA I ("background") (seed + 1), Q, seed + 1,
        [⟨"background", some (seed + 1)⟩], st⟩ =
      ⟨L, "background" :: P, insertA I ("background") (seed + 1),
        Q.foldl (fun acc h => acc.erase h) Q, seed + 1,
        [⟨"background", some (seed + 1)⟩], st⟩ := by
    simp only [startBackground, stopOneShots]
    split
    · next => rfl
    · next hcond =>
        exfalso
        exact hcond (Or.inr (List.mem_cons_self _ _))
  rw [hsb2]
  generalize Q.foldl (fun acc h => acc.erase h) Q = R
  have hdc : drainConts
      ⟨L, "background" :: P, insertA I ("background") (seed + 1), R, seed + 1,
        [⟨"background", some (seed + 1)⟩], st⟩ =
      ⟨"background" :: L, ("background" :: P).erase ("background"),
        insertA (insertA I ("background") (seed + 1)) ("background") (seed + 1),
        R, seed + 1, [], st + 1⟩ := by
    simp only [drainConts, List.foldl_cons, List.foldl_nil, resolveCont]
    have hc1 : ¬((seed + 1 ≠ 0) ∧
        lookupA (insertA I ("background") (seed + 1)) ("background") ≠ some (seed + 1)) :=
      fun hc => hc.2 (lookupA_insertA_self I ("background") (seed + 1))
    rw [if_neg hc1, if_neg h₁, if_pos (Nat.succ_ne_zero seed)]
  rw [hdc]
  constructor
  · simp only [List.count_cons_self]
    rw [List.count_eq_zero.mpr h₁]
  · rfl

/-- Witness for C2 from the freshly constructed (empty) engine state. -/
theorem double_start_single_instance_witness :
    ("background" ∉ (⟨[], [], [], [], 0, [], 0⟩ : EngineState).loops)
    ∧ ("background" ∉ (⟨[], [], [], [], 0, [], 0⟩ : EngineState).pendingLoops)
    ∧ ((⟨[], [], [], [], 0, [], 0⟩ : EngineState).conts = [])
    ∧ ((drainConts (startBackground (startBackground
          ⟨[], [], [], [], 0, [], 0⟩))).loops.count ("background") = 1
      ∧ (drainConts (startBackground (startBackground
          ⟨[], [], [], [], 0, [], 0⟩))).started =
          (⟨[], [], [], [], 0, [], 0⟩ : EngineState).started + 1) :=
  ⟨by decide, by decide, rfl,
    double_start_single_instance ⟨[], [], [], [], 0, [], 0⟩ (by decide) (by decide) rfl⟩

/-! ## Lemmas about the asset-path configuration -/

/-- A successful association-list lookup means the key occurs in the key
list. -/
theorem lookupA_mem_keys {α : Type} (l : List (String × α)) (k : String) (v : α)
    (h : lookupA l k = some v) : k ∈ l.map Prod.fst := by
  induction l with
  | nil => simp [lookupA] at h
  | cons p t ih =>
    obtain ⟨k₀, w⟩ := p
    by_cases hk : k₀ = k
    · subst hk; simp
    · simp only [lookupA, if_neg hk] at h
      simp [ih h]

/-- The table `DEFAULT_FILE_MAP` binds only keys known to `SOUND_SPECS`. -/
theorem lookupA_default_of_unknown (k : String) (h : (SOUND_SPECS k).isNone) :
    lookupA DEFAULT_FILE_MAP k = none := by
  cases hl : lookupA DEFAULT_FILE_MAP k with
  | none => rfl
  | some v =>
    exfalso
    have hmem := lookupA_mem_keys DEFAULT_FILE_MAP k v hl
    simp only [DEFAULT_FILE_MAP, List.map_cons, List.map_nil, List.mem_cons,
      List.not_mem_nil, or_false] at hmem
    rcases hmem with rfl | rfl | rfl | rfl | rfl | rfl | rfl | rfl | rfl | rfl | rfl
    all_goals exact absurd h (by decide)

/-- C7: For every provider state, every sound identifier `x` and either
fetch outcome, reconfiguring with `x` mapped to `null` and then resolving
a buffer for `x` takes the procedural-generation path and issues no asset
retrieval, even if a decoded buffer or in-flight load for `x`'s former
asset existed before the reconfiguration. -/
theorem configure_null_then_procedural (s : FilesState) (x : String) (ok : Bool) :
    (obtainBuffer ok (configureFiles s [(x, OverrideVal.nullVal)]) x).1.fetched = false
    ∧ (obtainBuffer ok (configureFiles s [(x, OverrideVal.nullVal)]) x).1.res =
        Except.ok BufSource.procedural := by
  have hnone : lookupA (configureFiles s [(x, OverrideVal.nullVal)]).files x = none := by
    show lookupA (applyFileOverrides DEFAULT_FILE_MAP [(x, OverrideVal.nullVal)]) x = none
    simp only [applyFileOverrides, List.foldl_cons, List.foldl_nil, applyOverride]
    by_cases hk : (SOUND_SPECS x).isNone
    · rw [if_pos hk]
      exact lookupA_default_of_unknown x hk
    · rw [if_neg hk]
      exact lookupA_eraseA_self DEFAULT_FILE_MAP x
  simp [obtainBuffer, hnone]

/-- Applying one override entry for a different key does not change the
binding of `k`. -/
theorem lookupA_applyOverride_ne (files : List (String × String)) (k k' : String)
    (v : OverrideVal) (h : k ≠ k') :
    lookupA (applyOverride files (k', v)) k = lookupA files k := by
  unfold applyOverride
  by_cases hk : (SOUND_SPECS k').isNone
  · rw [if_pos hk]
  · rw [if_neg hk]
    cases v with
    | strVal str =>
      show lookupA (if str.trim ≠ "" then insertA files k' str.trim else files) k =
        lookupA files k
      by_cases ht : str.trim ≠ ""
      · rw [if_pos ht]
        exact lookupA_insertA_ne files k k' str.trim h
      · rw [if_neg ht]
    | nullVal => exact lookupA_eraseA_ne files k k' h
    | falseVal => exact lookupA_eraseA_ne files k k' h
    | otherVal => rfl

/-- Applying one override entry never creates a binding for a key unknown
to `SOUND_SPECS`. -/
theorem applyOverride_unknown_absent (files : List (String × String))
    (kv : String × OverrideVal) (k : String) (hk : (SOUND_SPECS k).isNone)
    (h : lookupA files k = none) : lookupA (applyOverride files kv) k = none := by
  by_cases hne : k = kv.1
  · subst hne
    unfold applyOverride
    rw [if_pos hk]
    exact h
  · rw [show kv = (kv.1, kv.2) from rfl, lookupA_applyOverride_ne files k kv.1 kv.2 hne]
    exact h

/-- Applying a whole override map never creates a binding for a key
unknown to `SOUND_SPECS`. -/
theorem applyFileOverrides_unknown_absent (m : List (String × OverrideVal))
    (files : List (String × String)) (k : String) (hk : (SOUND_SPECS k).isNone)
    (h : lookupA files k = none) :
    lookupA (applyFileOverrides files m) k = none := by
  induction m generalizing files with
  | nil => exact h
  | cons kv t ih =>
    exact ih (applyOverride files kv) (applyOverride_unknown_absent files kv k hk h)

/-- Map entries whose key is not `k` leave `k`'s binding unchanged through
a whole override application. -/
theorem applyFileOverrides_frame (m : List (String × OverrideVal)) (k : String)
    (h : k ∉ m.map Prod.fst) :
    ∀ files : List (String × String),
      lookupA (applyFileOverrides files m) k = lookupA files k := by
  induction m with
  | nil => intro files; rfl
  | cons kv t ih =>
    intro files
    have hk1 : k ≠ kv.1 := by
      intro he
      exact h (by simp [he])
    have ht : k ∉ t.map Prod.fst := fun hmem => h (by simp [hmem])
    calc lookupA (applyFileOverrides files (kv :: t)) k
        = lookupA (applyFileOverrides (applyOverride files kv) t) k := rfl
      _ = lookupA (applyOverride files kv) k := ih ht (applyOverride files kv)
      _ = lookupA files k := by
          rw [show kv = (kv.1, kv.2) from rfl,
            lookupA_applyOverride_ne files k kv.1 kv.2 hk1]

/-- A known key mapped to `null` or `false` somewhere in a duplicate-free
override map ends up unbound after the whole map is applied. -/
theorem applyFileOverrides_removed (m : List (String × OverrideVal)) (k : String)
    (hknown : ¬(SOUND_SPECS k).isNone = true) :
    ∀ files : List (String × String),
      ((k, OverrideVal.nullVal) ∈ m ∨ (k, OverrideVal.falseVal) ∈ m) →
      (m.map Prod.fst).Nodup →
      lookupA (applyFileOverrides files m) k = none := by
  induction m with
  | nil =>
    intro files hmem _
    rcases hmem with h | h <;> simp at h
  | cons kv t ih =>
    intro files hmem hnodup
    obtain ⟨k₁, v₁⟩ := kv
    rw [List.map_cons] at hnodup
    obtain ⟨hnotin, hnd⟩ := List.nodup_cons.mp hnodup
    by_cases hk : k₁ = k
    · subst hk
      have hv : v₁ = OverrideVal.nullVal ∨ v₁ = OverrideVal.falseVal := by
        rcases hmem with h | h
        · rcases List.mem_cons.mp h with he | htl
          · exact Or.inl (congrArg Prod.snd he).symm
          · exact absurd (by simpa using List.mem_map_of_mem Prod.fst htl) hnotin
        · rcases List.mem_cons.mp h with he | htl
          · exact Or.inr (congrArg Prod.snd he).symm
          · exact absurd (by simpa using List.mem_map_of_mem Prod.fst htl) hnotin
      have hstep : ∀ v₂, v₂ = OverrideVal.nullVal ∨ v₂ = OverrideVal.falseVal →
          lookupA (applyOverride files (k₁, v₂)) k₁ = none := by
        intro v₂ hv₂
        unfold applyOverride
        rw [if_neg hknown]
        rcases hv₂ with rfl | rfl
        · exact lookupA_eraseA_self files k₁
        · exact lookupA_eraseA_self files k₁
      calc lookupA (applyFileOverrides files ((k₁, v₁) :: t)) k₁
          = lookupA (applyFileOverrides (applyOverride files (k₁, v₁)) t) k₁ := rfl
        _ = lookupA (applyOverride files (k₁, v₁)) k₁ :=
            applyFileOverrides_frame t k₁ hnotin (applyOverride files (k₁, v₁))
        _ = none := hstep v₁ hv
    · have hmem' : (k, OverrideVal.nullVal) ∈ t ∨ (k, OverrideVal.falseVal) ∈ t := by
        rcases hmem with h | h
        · rcases List.mem_cons.mp h with he | htl
          · exact absurd (congrArg Prod.fst he).symm hk
          · exact Or.inl htl
        · rcases List.mem_cons.mp h with he | htl
          · exact absurd (congrArg Prod.fst he).symm hk
          · exact Or.inr htl
      exact ih (applyOverride files (k₁, v₁)) hmem' hnd

/-- C9: For every reconfiguration input map with duplicate-free keys,
entries whose key is not a known sound identifier are ignored — after
`configureFiles` the asset-path table has no entry for any unknown key —
and entries for known keys set to `null` or `false` are removed from the
table. -/
theorem configureFiles_override_policy (s : FilesState)
    (m : List (String × OverrideVal)) (hnodup : (m.map Prod.fst).Nodup) :
    (∀ k, (SOUND_SPECS k).isNone → lookupA (configureFiles s m).files k = none)
    ∧ (∀ k, (SOUND_SPECS k).isSome →
        ((k, OverrideVal.nullVal) ∈ m ∨ (k, OverrideVal.falseVal) ∈ m) →
        lookupA (configureFiles s m).files k = none) := by
  constructor
  · intro k hk
    show lookupA (applyFileOverrides DEFAULT_FILE_MAP m) k = none
    exact applyFileOverrides_unknown_absent m DEFAULT_FILE_MAP k hk
      (lookupA_default_of_unknown k hk)
  · intro k hk hmem
    show lookupA (applyFileOverrides DEFAULT_FILE_MAP m) k = none
    have hno : ¬(SOUND_SPECS k).isNone = true := by
      cases hc : SOUND_SPECS k
      · rw [hc] at hk; simp at hk
      · simp
    exact applyFileOverrides_removed m k hno DEFAULT_FILE_MAP hmem hnodup

/-- Witness for C9: the map removes the known `"background"` override and
carries an entry for the unknown key `"zzz"`. -/
theorem configureFiles_override_policy_witness :
    ((([("zzz", OverrideVal.strVal ("boom.mp3")),
        ("background", OverrideVal.nullVal)].map Prod.fst)).Nodup)
    ∧ lookupA (configureFiles ⟨DEFAULT_FILE_MAP, [], [], []⟩
        [("zzz", OverrideVal.strVal ("boom.mp3")),
         ("background", OverrideVal.nullVal)]).files ("zzz") = none
    ∧ lookupA (configureFiles ⟨DEFAULT_FILE_MAP, [], [], []⟩
        [("zzz", OverrideVal.strVal ("boom.mp3")),
         ("background", OverrideVal.nullVal)]).files ("background") = none :=
  ⟨by decide,
    (configureFiles_override_policy ⟨DEFAULT_FILE_MAP, [], [], []⟩
      [("zzz", OverrideVal.strVal ("boom.mp3")),
       ("background", OverrideVal.nullVal)] (by decide)).1 ("zzz") (by decide),
    (configureFiles_override_policy ⟨DEFAULT_FILE_MAP, [], [], []⟩
      [("zzz", OverrideVal.strVal ("boom.mp3")),
       ("background", OverrideVal.nullVal)] (by decide)).2 ("background") (by decide)
      (Or.inl (by decide))⟩

/-! ## Lemmas about permanent fallback after a failed load -/

/-- The operation `obtainBuffer` never (re)creates an asset-path binding: a sound
identifier with no mapping keeps none through any resolution. -/
theorem obtainBuffer_preserves_files_none (ok : Bool) (s : FilesState)
    (n name : String) (hn : lookupA s.files name = none) :
    lookupA (obtainBuffer ok s n).2.files name = none := by
  unfold obtainBuffer
  cases hl : lookupA s.files n with
  | none => exact hn
  | some key =>
    dsimp only
    by_cases h1 : key ∈ s.fileBuffers
    · rw [if_pos h1]; exact hn
    · rw [if_neg h1]
      by_cases h2 : key ∈ s.bufferPromises
      · rw [if_pos h2]; exact hn
      · rw [if_neg h2]
        by_cases h3 : ok = true
        · rw [if_pos h3]; exact hn
        · rw [if_neg h3]
          exact lookupA_eraseA_of_none s.files name n hn

/-- The missing-mapping fact survives any sequence of resolutions that
contains no reconfiguration. -/
theorem runFilesOps_preserves_files_none (ops : List FilesOp) (name : String) :
    ∀ s : FilesState, (∀ op ∈ ops, op.isConfigure = false) →
      lookupA s.files name = none →
      lookupA (runFilesOps s ops).files name = none := by
  induction ops with
  | nil => intro s _ hn; exact hn
  | cons op t ih =>
    intro s hops hn
    have hop : op.isConfigure = false := hops op (List.mem_cons_self op t)
    have ht : ∀ o ∈ t, o.isConfigure = false :=
      fun o ho => hops o (List.mem_cons_of_mem op ho)
    cases op with
    | obtain ok n =>
      exact ih (obtainBuffer ok s n).2 ht
        (obtainBuffer_preserves_files_none ok s n name hn)
    | configure m => simp [FilesOp.isConfigure] at hop

/-- With no asset-path mapping, a resolution takes the procedural path and
issues no retrieval. -/
theorem obtainBuffer_none_procedural (ok : Bool) (s : FilesState) (name : String)
    (hn : lookupA s.files name = none) :
    (obtainBuffer ok s name).1.fetched = false
    ∧ (obtainBuffer ok s name).1.res = Except.ok BufSource.procedural := by
  simp [obtainBuffer, hn]

/-- C6 (amended): Once a retrieval or decode attempt for an identifier
fails, the resolution settles with the procedural buffer, never an error,
and the asset-path mapping is removed; as long as no reconfiguration
(`configureFiles`) intervenes, every later resolution for that identifier
takes the procedural path and never re-attempts retrieval.  (The original
unconditional claim fails: `configureFiles` restores the default mapping,
see the counterexample.) -/
theorem obtain_failure_permanent_fallback (s : FilesState) (name key : String)
    (hfile : lookupA s.files name = some key)
    (hnc : key ∉ s.fileBuffers) (hnp : key ∉ s.bufferPromises) :
    (obtainBuffer false s name).1.fetched = true
    ∧ (obtainBuffer false s name).1.res = Except.ok BufSource.procedural
    ∧ lookupA (obtainBuffer false s name).2.files name = none
    ∧ ∀ ops : List FilesOp, (∀ op ∈ ops, op.isConfigure = false) →
        ∀ ok : Bool,
          (obtainBuffer ok (runFilesOps (obtainBuffer false s name).2 ops) name).1.fetched
            = false
          ∧ (obtainBuffer ok (runFilesOps (obtainBuffer false s name).2 ops) name).1.res
            = Except.ok BufSource.procedural := by
  have hstep : obtainBuffer false s name =
      ({ fetched := true, res := Except.ok BufSource.procedural },
        { files := eraseA s.files name,
          fileBuffers := s.fileBuffers.erase key,
          bufferPromises := s.bufferPromises.erase key,
          buffers := name :: s.buffers }) := by
    unfold obtainBuffer
    rw [hfile]
    dsimp only
    rw [if_neg hnc, if_neg hnp, if_neg (by simp)]
    rfl
  refine ⟨by rw [hstep], by rw [hstep], ?_, ?_⟩
  · rw [hstep]
    exact lookupA_eraseA_self s.files name
  · intro ops hops ok
    have hn : lookupA (obtainBuffer false s name).2.files name = none := by
      rw [hstep]
      exact lookupA_eraseA_self s.files name
    exact obtainBuffer_none_procedural ok _ name
      (runFilesOps_preserves_files_none ops name (obtainBuffer false s name).2 hops hn)

/-- Witness for C6's amended theorem: failing the default `"background"`
asset from a fresh provider state. -/
theorem obtain_failure_permanent_fallback_witness :
    lookupA (⟨DEFAULT_FILE_MAP, [], [], []⟩ : FilesState).files ("background") =
      some ("audio/background_loop.mp3")
    ∧ ("audio/background_loop.mp3" ∉ (⟨DEFAULT_FILE_MAP, [], [], []⟩ : FilesState).fileBuffers)
    ∧ ("audio/background_loop.mp3" ∉ (⟨DEFAULT_FILE_MAP, [], [], []⟩ : FilesState).bufferPromises)
    ∧ ((obtainBuffer false ⟨DEFAULT_FILE_MAP, [], [], []⟩ ("background")).1.fetched = true
      ∧ (obtainBuffer false ⟨DEFAULT_FILE_MAP, [], [], []⟩ ("background")).1.res =
          Except.ok BufSource.procedural
      ∧ lookupA (obtainBuffer false ⟨DEFAULT_FILE_MAP, [], [], []⟩
          ("background")).2.files ("background") = none
      ∧ ∀ ops : List FilesOp, (∀ op ∈ ops, op.isConfigure = false) →
          ∀ ok : Bool,
            (obtainBuffer ok (runFilesOps (obtainBuffer false
              ⟨DEFAULT_FILE_MAP, [], [], []⟩ ("background")).2 ops)
              ("background")).1.fetched = false
            ∧ (obtainBuffer ok (runFilesOps (obtainBuffer false
              ⟨DEFAULT_FILE_MAP, [], [], []⟩ ("background")).2 ops)
              ("background")).1.res = Except.ok BufSource.procedural) :=
  ⟨by decide, by decide, by decide,
    obtain_failure_permanent_fallback ⟨DEFAULT_FILE_MAP, [], [], []⟩ ("background")
      ("audio/background_loop.mp3") (by decide) (by decide) (by decide)⟩

/-- Counterexample to C6 as stated: after a failed retrieval for
`"background"` (which removes the mapping), a `configureFiles` call — part
of the public surface, so part of "the remainder of the process" — restores
the default mapping, and the next resolution for the same identifier
re-attempts retrieval of the same asset. -/
theorem obtain_failure_retried_after_configure :
    (obtainBuffer false ⟨DEFAULT_FILE_MAP, [], [], []⟩ ("background")).1.fetched = true
    ∧ lookupA (obtainBuffer false ⟨DEFAULT_FILE_MAP, [], [], []⟩
        ("background")).2.files ("background") = none
    ∧ (obtainBuffer true
        (configureFiles (obtainBuffer false ⟨DEFAULT_FILE_MAP, [], [], []⟩
          ("background")).2 [])
        ("background")).1.fetched = true := by
  decide
